import Mathlib

/-!
Verification of the onroad annotated-camera HUD compositing logic
(selfdrive/ui/qt/onroad/annotated_camera.h).  The header under src/ holds
declarations and member initializers only; component behaviour that lives in
the missing implementation file is modelled from the specification, with each
such definition marked by a doc comment starting with the words
Modelled from the spec.
-/

namespace AnnotatedCamera

/-! ## Definitions -/

/-! ### PedalIcons (spec section 4.5) -/

/-- The four pedal-icon states of the PedalIcons widget. -/
inductive PedalState where
  | staticIcon
  | accelerating
  | decelerating
  | brakingStandstill
deriving DecidableEq, Repr

/-- Modelled from the spec: the body of PedalIcons::updateState / paintEvent is
not under src (the header declares only the flag fields accelerating,
decelerating, standstill, brakeLightOn, dynamicPedals and acceleration).
Transition function of spec section 4.5: standstill and brakeLightOn give
braking-standstill; else dynamic pedals and positive acceleration give
accelerating; else dynamic pedals and negative acceleration give decelerating;
else static. -/
def pedalState (acceleration : ℚ) (brakeLightOn standstill dynamicPedals : Bool) : PedalState :=
  if standstill = true ∧ brakeLightOn = true then .brakingStandstill
  else if dynamicPedals = true ∧ 0 < acceleration then .accelerating
  else if dynamicPedals = true ∧ acceleration < 0 then .decelerating
  else .staticIcon

/-! ### StatusBarManager (spec section 4.6) -/

/-- The banners the status bar can show, one per feature flag. -/
inductive Banner where
  | slcConfirmation
  | slcOverride
  | alwaysOnLateral
  | conditionalExperimental
  | trafficMode
deriving DecidableEq, Repr

/-- Modelled from the spec: the body of AnnotatedCameraWidget::drawStatusBar is
not under src (the header declares only the flags speedLimitChanged,
slcOverridden, alwaysOnLateralActive, showConditionalExperimentalStatusBar and
trafficModeActive).  Precedence order of spec section 4.6, highest first:
speed-limit confirmation pending, speed-limit overridden, always-on-lateral,
conditional-experimental, traffic mode, none. -/
def selectBanner (speedLimitChanged slcOverridden alwaysOnLateralActive
    showConditionalExperimentalStatusBar trafficModeActive : Bool) : Option Banner :=
  if speedLimitChanged then some .slcConfirmation
  else if slcOverridden then some .slcOverride
  else if alwaysOnLateralActive then some .alwaysOnLateral
  else if showConditionalExperimentalStatusBar then some .conditionalExperimental
  else if trafficModeActive then some .trafficMode
  else none

/-! ### Compass (spec sections 4.4 and 8) -/

/-- Modelled from the spec: the body of Compass::paintEvent is not under src.
The rendered rotation of the dynamic compass layer, computed from the integer
bearing with the normalisation formula of spec section 8, using the C++
truncating remainder Int.tmod for the percent operator. -/
def compassRotation (b : Int) : Int :=
  Int.tmod (Int.tmod b 360 + 360) 360

/-- Truncation toward zero of a rational, which is the semantics of the C++
float-to-int conversion applied when a floating heading is stored in the int
field bearingDeg. -/
def cppIntCast (q : ℚ) : Int :=
  if 0 ≤ q then ⌊q⌋ else ⌈q⌉

/-- Modelled from the spec: the body of Compass::updateState is not under src;
the header stores the bearing in the int field bearingDeg, so assigning the
real-valued scene heading truncates it toward zero. -/
def updateBearing (heading : ℚ) : Int :=
  cppIntCast heading

/-- The rotation rendered for a raw scene heading: the fractional degrees are
discarded by the int store, then the integer bearing is normalised. -/
def compassRenderedRotation (heading : ℚ) : Int :=
  compassRotation (updateBearing heading)

/-! ### TurnSignalAnimator (spec section 4.7) -/

/-- Modelled from the spec: the bodies of AnnotatedCameraWidget::updateSignals
and drawTurnSignals are not under src (the header declares animationFrameIndex,
totalFrames, turnSignalLeft, turnSignalRight and the animation timer).  One
timer tick per spec section 4.7: while either signal flag is active the index
advances and wraps modulo totalFrames; otherwise it resets to 0. -/
def signalTick (totalFrames : Nat) (turnSignalLeft turnSignalRight : Bool) (i : Nat) : Nat :=
  if turnSignalLeft || turnSignalRight then (i + 1) % totalFrames else 0

/-- The frame index after k ticks, where fl gives the pair of signal flags
sampled at each tick, starting from index i. -/
def runSignal (totalFrames : Nat) (fl : Nat → Bool × Bool) (i : Nat) : Nat → Nat
  | 0 => i
  | k + 1 => signalTick totalFrames (fl k).1 (fl k).2 (runSignal totalFrames fl i k)

/-! ### SmoothingFilter (spec section 4.8) -/

/-- Modelled from the spec: the FirstOrderFilter behind the fps_filter member is
declared outside src; update law of spec section 4.8, with the gain recomputed
from the elapsed time dt of this update. -/
def filterUpdate (timeConstant dt out x : ℚ) : ℚ :=
  out + dt / (dt + timeConstant) * (x - out)

/-- The filter output after n updates, where dts gives the elapsed time and xs
the input sampled at each update, starting from output out0. -/
def filterRun (timeConstant : ℚ) (dts xs : Nat → ℚ) (out0 : ℚ) : Nat → ℚ
  | 0 => out0
  | n + 1 => filterUpdate timeConstant (dts n) (filterRun timeConstant dts xs out0 n) (xs n)

/-! ### LeadVisualizer (spec section 4.2) -/

/-- A lead-vehicle detection as described by the spec data model: relative
longitudinal distance, relative lateral offset, relative velocity and the
adjacent flag (matching the adjacent parameter of drawLead). -/
structure LeadDetection where
  dRel : ℚ
  yRel : ℚ
  vRel : ℚ
  adjacent : Bool
deriving DecidableEq, Repr

/-- A projected screen point, the vd argument handed to drawLead. -/
structure ScreenPoint where
  x : ℚ
  y : ℚ
deriving DecidableEq, Repr

/-- Modelled from the spec: the body of paintGL that invokes drawLead is not
under src.  The visible markers of a tick: each detection is paired with its
projected screen point, and a detection whose projection is none is omitted
entirely (spec sections 4.2 and 7). -/
def visibleLeads (project : LeadDetection → Option ScreenPoint)
    (leads : List LeadDetection) : List (LeadDetection × ScreenPoint) :=
  leads.filterMap fun l => (project l).map fun pt => (l, pt)

/-- The farthest-first ordering on visible markers: a marker precedes another
when its relative distance is at least as large. -/
def fartherFirst (a b : LeadDetection × ScreenPoint) : Prop :=
  b.1.dRel ≤ a.1.dRel

instance : DecidableRel fartherFirst := fun a b =>
  inferInstanceAs (Decidable (b.1.dRel ≤ a.1.dRel))

instance : IsTotal (LeadDetection × ScreenPoint) fartherFirst :=
  ⟨fun a b => le_total b.1.dRel a.1.dRel⟩

instance : IsTrans (LeadDetection × ScreenPoint) fartherFirst :=
  ⟨fun _ _ _ hab hbc => le_trans hbc hab⟩

/-- Modelled from the spec: the draw sequence the LeadVisualizer emits in one
tick, with the visible markers ordered farthest first so the nearest marker is
drawn last (spec section 4.2). -/
def drawSequence (project : LeadDetection → Option ScreenPoint)
    (leads : List LeadDetection) : List (LeadDetection × ScreenPoint) :=
  List.insertionSort fartherFirst (visibleLeads project leads)

/-! ### FrameCompositor tick loop (spec section 4.1) -/

/-- A composited video frame: its content and whether compositing ran to
completion.  A torn frame is one whose fullyComposited flag is false. -/
structure Frame where
  content : Nat
  fullyComposited : Bool
deriving DecidableEq, Repr

/-- The compositor state observable across ticks: the frame currently
displayed and the frame-skip counter (the skip_frame_count member). -/
structure CompositorState where
  displayed : Frame
  skip_frame_count : Nat
deriving DecidableEq, Repr

/-- Modelled from the spec: the body of AnnotatedCameraWidget::paintGL is not
under src (the header declares skip_frame_count).  One tick per spec
section 4.1: when the update completes before the next video frame is ready, a
fully composited frame built from the snapshot is displayed; otherwise the
skip counter increments and the previously displayed frame is reused. -/
def compositorTick (s : CompositorState) (updateCompleted : Bool)
    (snapshot : Nat) : CompositorState :=
  if updateCompleted then
    { displayed := { content := snapshot, fullyComposited := true },
      skip_frame_count := s.skip_frame_count }
  else
    { displayed := s.displayed, skip_frame_count := s.skip_frame_count + 1 }

/-- The compositor state after running a list of ticks, each tick carrying
whether its update completed in time and the snapshot content it composited. -/
def compositorRun (s0 : CompositorState) : List (Bool × Nat) → CompositorState
  | [] => s0
  | t :: rest => compositorRun (compositorTick s0 t.1 t.2) rest

/-! ### AnnotatedCameraWidget member initializers (header lines 77 to 90) -/

/-- The engagement status values of the UI (declared in selfdrive/ui/ui.h,
outside src; only STATUS_DISENGAGED is needed here, as the header initializer
names it). -/
inductive UIStatus where
  | STATUS_DISENGAGED
  | STATUS_OVERRIDE
  | STATUS_ENGAGED
deriving DecidableEq, Repr

/-- The members of AnnotatedCameraWidget that carry in-class initializers in
annotated_camera.h, with exactly those initial values. -/
structure AnnotatedCameraWidgetInit where
  is_cruise_set : Bool := false
  is_metric : Bool := false
  dmActive : Bool := false
  hideBottomIcons : Bool := false
  rightHandDM : Bool := false
  dm_fade_state : ℚ := 1.0
  has_us_speed_limit : Bool := false
  has_eu_speed_limit : Bool := false
  v_ego_cluster_seen : Bool := false
  status : UIStatus := .STATUS_DISENGAGED
  skip_frame_count : Nat := 0
  wide_cam_requested : Bool := false
  prev_draw_t : ℚ := 0
deriving DecidableEq, Repr

/-- The widget state before the first updateState call: every field holds its
in-class initializer. -/
def initialWidgetState : AnnotatedCameraWidgetInit := {}

/-! ## Helper lemmas -/

/-- Truncated remainder negates with the dividend, matching the C++ percent
operator on a negated left operand. -/
theorem tmod_neg_left : ∀ (a b : Int), Int.tmod (-a) b = -Int.tmod a b
  | Int.ofNat 0, _ => by simp
  | Int.ofNat (_ + 1), b => by cases b <;> rfl
  | Int.negSucc m, b => by
      rw [Int.neg_negSucc]
      cases b <;> simp [Int.tmod]

/-- The C-style normalisation agrees with the mathematical remainder into the
interval from 0 up to 360. -/
theorem compassRotation_eq_emod (b : Int) : compassRotation b = b % 360 := by
  unfold compassRotation
  rcases le_or_lt 0 b with hb | hb
  · have h1 : Int.tmod b 360 = b % 360 := Int.tmod_eq_emod hb (by norm_num)
    have h2 : Int.tmod (b % 360 + 360) 360 = (b % 360 + 360) % 360 :=
      Int.tmod_eq_emod
        (by have := Int.emod_nonneg b (by norm_num : (360 : Int) ≠ 0); omega)
        (by norm_num)
    rw [h1, h2]
    omega
  · have hb2 : 0 ≤ -b := by omega
    have h1 : Int.tmod b 360 = -(-b % 360) := by
      rw [show b = -(-b) by ring, tmod_neg_left, Int.tmod_eq_emod hb2 (by norm_num)]
      simp
    have h3 : 0 ≤ -(-b % 360) + 360 := by
      have := Int.emod_lt_of_pos (-b) (by norm_num : (0 : Int) < 360)
      omega
    have h2 : Int.tmod (-(-b % 360) + 360) 360 = (-(-b % 360) + 360) % 360 :=
      Int.tmod_eq_emod h3 (by norm_num)
    rw [h1, h2]
    omega

/-- With a signal flag active at every tick, the index after k ticks is the
start index plus k, modulo totalFrames. -/
theorem runSignal_active (n i : Nat) (fl : Nat → Bool × Bool) (hi : i < n)
    (hactive : ∀ t, (fl t).1 = true ∨ (fl t).2 = true) (k : Nat) :
    runSignal n fl i k = (i + k) % n := by
  induction k with
  | zero => simpa [runSignal] using (Nat.mod_eq_of_lt hi).symm
  | succ m ih =>
    have hon : ((fl m).1 || (fl m).2) = true := by
      rcases hactive m with h | h <;> simp [h]
    have step : runSignal n fl i (m + 1) = ((i + m) % n + 1) % n := by
      simp [runSignal, signalTick, hon, ih]
    rw [step, Nat.mod_add_mod, Nat.add_assoc]

/-! ## Claim theorems -/

/-- C1: PedalIcons is a total deterministic function of its four inputs; each of
the four states is produced exactly on the input region the spec assigns to it
(spec section 4.5), so every input combination yields exactly one state. -/
theorem pedalState_total_deterministic (a : ℚ) (bl ss dp : Bool) :
    (pedalState a bl ss dp = .brakingStandstill ↔ ss = true ∧ bl = true) ∧
    (pedalState a bl ss dp = .accelerating ↔
      ¬(ss = true ∧ bl = true) ∧ dp = true ∧ 0 < a) ∧
    (pedalState a bl ss dp = .decelerating ↔
      ¬(ss = true ∧ bl = true) ∧ dp = true ∧ a < 0) ∧
    (pedalState a bl ss dp = .staticIcon ↔
      ¬(ss = true ∧ bl = true) ∧ (dp = false ∨ a = 0)) := by
  unfold pedalState
  rcases lt_trichotomy a 0 with ha | ha | ha
  · have h1 : ¬(0 : ℚ) < a := not_lt.mpr ha.le
    have h2 : a ≠ 0 := ne_of_lt ha
    cases bl <;> cases ss <;> cases dp <;> simp_all <;>
      rw [if_neg (not_lt.mpr ha.le)] <;> simp
  · cases bl <;> cases ss <;> cases dp <;> simp_all
  · have h1 : ¬a < 0 := not_lt.mpr ha.le
    have h2 : a ≠ 0 := (ne_of_lt ha).symm
    cases bl <;> cases ss <;> cases dp <;> simp_all

/-- C2: the status bar renders no banner exactly when every flag is false, some
banner whenever any flag is true, and each banner exactly on the inputs where
its flag is the highest-priority true one (spec section 4.6); in particular the
always-on-lateral plus traffic-mode combination yields the always-on-lateral
banner alone. -/
theorem selectBanner_precedence : ∀ sc ov aol ce tm : Bool,
    (selectBanner sc ov aol ce tm = none ↔
      sc = false ∧ ov = false ∧ aol = false ∧ ce = false ∧ tm = false) ∧
    ((sc || ov || aol || ce || tm) = true →
      (selectBanner sc ov aol ce tm).isSome = true) ∧
    (selectBanner sc ov aol ce tm = some .slcConfirmation ↔ sc = true) ∧
    (selectBanner sc ov aol ce tm = some .slcOverride ↔
      sc = false ∧ ov = true) ∧
    (selectBanner sc ov aol ce tm = some .alwaysOnLateral ↔
      sc = false ∧ ov = false ∧ aol = true) ∧
    (selectBanner sc ov aol ce tm = some .conditionalExperimental ↔
      sc = false ∧ ov = false ∧ aol = false ∧ ce = true) ∧
    (selectBanner sc ov aol ce tm = some .trafficMode ↔
      sc = false ∧ ov = false ∧ aol = false ∧ ce = false ∧ tm = true) ∧
    selectBanner false false true false true = some .alwaysOnLateral := by
  decide

/-- C3: for every integer bearing the rendered compass rotation equals the
normalisation formula of spec section 8, which wraps any bearing, negative or
at least 360 included, into the interval from 0 up to 360. -/
theorem compassRotation_spec (b : Int) :
    compassRotation b = (b % 360 + 360) % 360 ∧
    compassRotation b = b % 360 ∧
    0 ≤ compassRotation b ∧ compassRotation b < 360 := by
  have key := compassRotation_eq_emod b
  have h1 := Int.emod_nonneg b (by norm_num : (360 : Int) ≠ 0)
  have h2 := Int.emod_lt_of_pos b (by norm_num : (0 : Int) < 360)
  refine ⟨?_, key, ?_, ?_⟩ <;> omega

/-- C4: with a signal flag continuously active, after exactly totalFrames ticks
the frame index returns to its starting value; the index always stays below
totalFrames; and one tick after both signal flags go false the index is 0
(spec section 4.7). -/
theorem turnSignal_spec (n i : Nat) (fl : Nat → Bool × Bool)
    (hn : 0 < n) (hi : i < n)
    (hactive : ∀ t, (fl t).1 = true ∨ (fl t).2 = true) :
    runSignal n fl i n = i ∧
    (∀ k, runSignal n fl i k < n) ∧
    (∀ j, signalTick n false false j = 0) := by
  refine ⟨?_, ?_, fun j => rfl⟩
  · rw [runSignal_active n i fl hi hactive n, Nat.add_mod_right, Nat.mod_eq_of_lt hi]
  · intro k
    cases k with
    | zero => exact hi
    | succ m =>
      show signalTick n (fl m).1 (fl m).2 (runSignal n fl i m) < n
      unfold signalTick
      split
      · exact Nat.mod_lt _ hn
      · exact hn

/-- Witness for C4 at totalFrames 4, start index 1, left signal held active. -/
theorem turnSignal_spec_witness :
    runSignal 4 (fun _ => (true, false)) 1 4 = 1 ∧
    (∀ k, runSignal 4 (fun _ => (true, false)) 1 k < 4) ∧
    (∀ j, signalTick 4 false false j = 0) :=
  turnSignal_spec 4 1 (fun _ => (true, false)) (by norm_num) (by norm_num)
    (fun _ => Or.inl rfl)

/-- C9: before the first updateState call the widget starts with cruise not
set, non-metric units, driver monitoring inactive at full fade, disengaged
status and a zero frame-skip count, exactly as the in-class initializers of
annotated_camera.h state. -/
theorem initialWidgetState_spec :
    initialWidgetState.is_cruise_set = false ∧
    initialWidgetState.is_metric = false ∧
    initialWidgetState.dmActive = false ∧
    initialWidgetState.dm_fade_state = 1 ∧
    initialWidgetState.status = .STATUS_DISENGAGED ∧
    initialWidgetState.skip_frame_count = 0 := by
  refine ⟨rfl, rfl, rfl, ?_, rfl, rfl⟩
  norm_num [initialWidgetState]

/-- Witness for C1: positive acceleration with dynamic pedals enabled selects
the accelerating state. -/
theorem pedalState_witness : pedalState 2 false false true = .accelerating :=
  ((pedalState_total_deterministic 2 false false true).2.1).mpr
    ⟨by simp, rfl, by norm_num⟩

/-- Witness for C2: always-on-lateral and traffic mode both active yield the
always-on-lateral banner alone. -/
theorem selectBanner_witness :
    selectBanner false false true false true = some .alwaysOnLateral :=
  (selectBanner_precedence false false true false true).2.2.2.2.2.2.2

/-- The truncating int cast lands within one unit of its argument. -/
theorem cppIntCast_close (q : ℚ) : |(cppIntCast q : ℚ) - q| < 1 := by
  unfold cppIntCast
  split_ifs with hq
  · have h1 := Int.floor_le q
    have h2 := Int.lt_floor_add_one q
    rw [abs_lt]
    constructor <;> linarith
  · have h1 := Int.le_ceil q
    have h2 := Int.ceil_lt_add_one q
    rw [abs_lt]
    constructor <;> linarith

/-- C10: bearingDeg is an int, so storing a heading discards its fractional
part: the stored bearing lies within one degree of the raw heading, and two
headings that agree after the fractional part is dropped render exactly the
same compass rotation. -/
theorem bearing_truncation_spec (h₁ h₂ : ℚ)
    (hsame : updateBearing h₁ = updateBearing h₂) :
    compassRenderedRotation h₁ = compassRenderedRotation h₂ ∧
    |(updateBearing h₁ : ℚ) - h₁| < 1 ∧
    |(updateBearing h₂ : ℚ) - h₂| < 1 := by
  refine ⟨?_, cppIntCast_close h₁, cppIntCast_close h₂⟩
  unfold compassRenderedRotation
  rw [hsame]

/-- Witness for C10: the headings 3.5 and 10/3 store the same whole-degree
bearing and render identically. -/
theorem bearing_truncation_spec_witness :
    compassRenderedRotation (7 / 2) = compassRenderedRotation (10 / 3) ∧
    |(updateBearing (7 / 2) : ℚ) - 7 / 2| < 1 ∧
    |(updateBearing (10 / 3) : ℚ) - 10 / 3| < 1 :=
  bearing_truncation_spec (7 / 2) (10 / 3) (by norm_num [updateBearing, cppIntCast])

/-- C6: a detection whose projection is none is omitted from the emitted draw
sequence entirely: no marker of that tick is for it (spec sections 4.2 and 7). -/
theorem lead_projection_none_omitted (project : LeadDetection → Option ScreenPoint)
    (leads : List LeadDetection) (d : LeadDetection)
    (hnone : project d = none) :
    ∀ m ∈ drawSequence project leads, m.1 ≠ d := by
  intro m hm hmd
  have hm2 : m ∈ visibleLeads project leads :=
    (List.perm_insertionSort fartherFirst (visibleLeads project leads)).mem_iff.mp hm
  rcases List.mem_filterMap.mp hm2 with ⟨l, _, hmap⟩
  rcases Option.map_eq_some'.mp hmap with ⟨pt, hpt, hlm⟩
  have : project d = some pt := by
    rw [← hmd, ← hlm]
    exact hpt
  rw [hnone] at this
  exact Option.noConfusion this

/-- Witness for C6: with a projection that fails beyond distance 3, the marker
the draw sequence does emit is not for the unprojectable distance-5 detection. -/
theorem lead_projection_none_omitted_witness :
    (LeadDetection.mk 2 1 0 false, ScreenPoint.mk 1 2).1
      ≠ LeadDetection.mk 5 0 0 false :=
  lead_projection_none_omitted
    (fun l => if l.dRel ≤ 3 then some (ScreenPoint.mk l.yRel l.dRel) else none)
    [LeadDetection.mk 5 0 0 false, LeadDetection.mk 2 1 0 false]
    (LeadDetection.mk 5 0 0 false)
    (by norm_num)
    (LeadDetection.mk 2 1 0 false, ScreenPoint.mk 1 2)
    (by decide)

/-- C7: when the visible markers of a tick have pairwise distinct distances,
the emitted draw sequence is strictly ordered farthest first, so the nearest
marker is drawn last, and it contains exactly the visible markers (spec
section 4.2). -/
theorem lead_draw_order (project : LeadDetection → Option ScreenPoint)
    (leads : List LeadDetection)
    (hdist : (visibleLeads project leads).Pairwise
      fun a b => a.1.dRel ≠ b.1.dRel) :
    (drawSequence project leads).Pairwise (fun a b => b.1.dRel < a.1.dRel) ∧
    (drawSequence project leads).Perm (visibleLeads project leads) := by
  have hperm := List.perm_insertionSort fartherFirst (visibleLeads project leads)
  have hsorted := List.sorted_insertionSort fartherFirst (visibleLeads project leads)
  have hne : (drawSequence project leads).Pairwise
      (fun a b => a.1.dRel ≠ b.1.dRel) :=
    (List.Perm.pairwise_iff (fun h => h.symm) hperm).mpr hdist
  refine ⟨?_, hperm⟩
  have hboth := List.Pairwise.and hsorted hne
  exact hboth.imp fun h => lt_of_le_of_ne h.1 h.2.symm

/-- Witness for C7: two visible markers at distances 2 and 5 are drawn with
the distance-5 marker first and the distance-2 marker last. -/
theorem lead_draw_order_witness :
    (drawSequence (fun l => some (ScreenPoint.mk l.yRel l.dRel))
        [LeadDetection.mk 2 1 0 false, LeadDetection.mk 5 0 0 true]).Pairwise
      (fun a b => b.1.dRel < a.1.dRel) ∧
    (drawSequence (fun l => some (ScreenPoint.mk l.yRel l.dRel))
        [LeadDetection.mk 2 1 0 false, LeadDetection.mk 5 0 0 true]).Perm
      (visibleLeads (fun l => some (ScreenPoint.mk l.yRel l.dRel))
        [LeadDetection.mk 2 1 0 false, LeadDetection.mk 5 0 0 true]) :=
  lead_draw_order _ _ (by
    unfold visibleLeads
    simp only [List.filterMap, Option.map]
    norm_num)

/-- C8: from a fully composited displayed frame, every state the tick loop can
reach still displays a fully composited frame, the skip counter counts exactly
the ticks whose update missed the video-frame deadline, and a late tick reuses
the previously displayed frame unchanged while incrementing the counter (spec
section 4.1). -/
theorem compositor_no_torn_frames (s0 : CompositorState)
    (ticks : List (Bool × Nat))
    (h0 : s0.displayed.fullyComposited = true) :
    (compositorRun s0 ticks).displayed.fullyComposited = true ∧
    (compositorRun s0 ticks).skip_frame_count =
      s0.skip_frame_count + (ticks.filter fun t => !t.1).length ∧
    (∀ s snap, (compositorTick s false snap).displayed = s.displayed ∧
      (compositorTick s false snap).skip_frame_count = s.skip_frame_count + 1) := by
  refine ⟨?_, ?_, fun s snap => ⟨rfl, rfl⟩⟩
  · induction ticks generalizing s0 with
    | nil => exact h0
    | cons t rest ih =>
      rcases t with ⟨u, snap⟩
      cases u
      · exact ih (compositorTick s0 false snap) h0
      · exact ih (compositorTick s0 true snap) rfl
  · induction ticks generalizing s0 with
    | nil => simp [compositorRun]
    | cons t rest ih =>
      rcases t with ⟨u, snap⟩
      cases u
      · have h := ih (compositorTick s0 false snap) h0
        simp [compositorRun, compositorTick, List.filter] at h ⊢
        omega
      · have h := ih (compositorTick s0 true snap) rfl
        simp [compositorRun, compositorTick, List.filter] at h ⊢
        omega

/-- Witness for C8: one on-time tick then one late tick leave a fully
composited frame displayed and a skip count of 1. -/
theorem compositor_no_torn_frames_witness :
    (compositorRun (CompositorState.mk (Frame.mk 0 true) 0)
        [(true, 7), (false, 9)]).displayed.fullyComposited = true ∧
    (compositorRun (CompositorState.mk (Frame.mk 0 true) 0)
        [(true, 7), (false, 9)]).skip_frame_count =
      (CompositorState.mk (Frame.mk 0 true) 0).skip_frame_count +
        (([(true, 7), (false, 9)] : List (Bool × Nat)).filter fun t => !t.1).length ∧
    (∀ s snap, (compositorTick s false snap).displayed = s.displayed ∧
      (compositorTick s false snap).skip_frame_count = s.skip_frame_count + 1) :=
  compositor_no_torn_frames (CompositorState.mk (Frame.mk 0 true) 0)
    [(true, 7), (false, 9)] rfl

/-- The filter gain of one update is strictly between 0 and 1 when both the
elapsed time and the time constant are positive. -/
theorem filterGain_bounds (tc dt : ℚ) (htc : 0 < tc) (hdt : 0 < dt) :
    0 < dt / (dt + tc) ∧ dt / (dt + tc) < 1 := by
  have hsum : 0 < dt + tc := by linarith
  exact ⟨div_pos hdt hsum, (div_lt_one hsum).mpr (by linarith)⟩

/-- A single filter update lands between any pair of bounds containing both
the current output and the input. -/
theorem filterUpdate_mem (tc dt out x lo hi : ℚ) (htc : 0 < tc) (hdt : 0 < dt)
    (hlo : lo ≤ out) (hhi : out ≤ hi) (hxlo : lo ≤ x) (hxhi : x ≤ hi) :
    lo ≤ filterUpdate tc dt out x ∧ filterUpdate tc dt out x ≤ hi := by
  obtain ⟨hk0, hk1⟩ := filterGain_bounds tc dt htc hdt
  unfold filterUpdate
  constructor
  · nlinarith [mul_nonneg (le_of_lt hk0) (sub_nonneg.mpr hxlo),
      mul_nonneg (sub_nonneg.mpr (le_of_lt hk1)) (sub_nonneg.mpr hlo)]
  · nlinarith [mul_nonneg (le_of_lt hk0) (sub_nonneg.mpr hxhi),
      mul_nonneg (sub_nonneg.mpr (le_of_lt hk1)) (sub_nonneg.mpr hhi)]

/-- With constant input and regular ticks, the error after n updates is the
initial error contracted by the n-th power of timeConstant/(dt+timeConstant). -/
theorem filterRun_const_err (tc dt x o : ℚ) (hsum : dt + tc ≠ 0) (n : Nat) :
    filterRun tc (fun _ => dt) (fun _ => x) o n - x
      = (tc / (dt + tc)) ^ n * (o - x) := by
  induction n with
  | zero => simp [filterRun]
  | succ m ih =>
    have step : filterRun tc (fun _ => dt) (fun _ => x) o (m + 1) - x
        = tc / (dt + tc) * (filterRun tc (fun _ => dt) (fun _ => x) o m - x) := by
      show filterUpdate tc dt (filterRun tc (fun _ => dt) (fun _ => x) o m) x - x = _
      unfold filterUpdate
      field_simp
      ring
    rw [step, ih]
    ring

/-- For a constant input the filter output reaches any positive error bound
after finitely many regular ticks. -/
theorem filterRun_const_converges (tc dt x o : ℚ) (htc : 0 < tc) (hdt : 0 < dt)
    (ε : ℚ) (hε : 0 < ε) :
    ∃ N, ∀ n, N ≤ n → |filterRun tc (fun _ => dt) (fun _ => x) o n - x| ≤ ε := by
  have hsum : 0 < dt + tc := by linarith
  have hr0 : 0 ≤ tc / (dt + tc) := le_of_lt (div_pos htc hsum)
  have hr1 : tc / (dt + tc) < 1 := (div_lt_one hsum).mpr (by linarith)
  have hεd : 0 < ε / (|o - x| + 1) := div_pos hε (by positivity)
  obtain ⟨N, hN⟩ := exists_pow_lt_of_lt_one hεd hr1
  refine ⟨N, fun n hn => ?_⟩
  have habs : |filterRun tc (fun _ => dt) (fun _ => x) o n - x|
      = (tc / (dt + tc)) ^ n * |o - x| := by
    rw [filterRun_const_err tc dt x o (ne_of_gt hsum) n, abs_mul, abs_pow,
      abs_of_nonneg hr0]
  rw [habs]
  have hpow : (tc / (dt + tc)) ^ n ≤ (tc / (dt + tc)) ^ N :=
    pow_le_pow_of_le_one hr0 (le_of_lt hr1) hn
  have h2 : ε / (|o - x| + 1) * |o - x| ≤ ε := by
    rw [div_mul_eq_mul_div, div_le_iff₀ (by positivity : (0 : ℚ) < |o - x| + 1)]
    nlinarith [abs_nonneg (o - x)]
  calc (tc / (dt + tc)) ^ n * |o - x|
      ≤ (tc / (dt + tc)) ^ N * |o - x| :=
        mul_le_mul_of_nonneg_right hpow (abs_nonneg _)
    _ ≤ ε / (|o - x| + 1) * |o - x| :=
        mul_le_mul_of_nonneg_right (le_of_lt hN) (abs_nonneg _)
    _ ≤ ε := h2

/-- For a nondecreasing input sequence starting at or above the initial
output, the output never overtakes the input it is chasing. -/
theorem filterRun_le_input (tc : ℚ) (htc : 0 < tc) (dts xs : Nat → ℚ) (o : ℚ)
    (hdts : ∀ j, 0 < dts j) (hmono : ∀ j, xs j ≤ xs (j + 1)) (ho : o ≤ xs 0) :
    ∀ n, filterRun tc dts xs o n ≤ xs n := by
  intro n
  induction n with
  | zero => exact ho
  | succ m ih =>
    have h := filterUpdate_mem tc (dts m) (filterRun tc dts xs o m) (xs m)
      (filterRun tc dts xs o m) (xs m) htc (hdts m) le_rfl ih ih le_rfl
    exact le_trans h.2 (hmono m)

/-- For a nonincreasing input sequence starting at or below the initial
output, the output never undercuts the input it is chasing. -/
theorem filterRun_ge_input (tc : ℚ) (htc : 0 < tc) (dts xs : Nat → ℚ) (o : ℚ)
    (hdts : ∀ j, 0 < dts j) (hmono : ∀ j, xs (j + 1) ≤ xs j) (ho : xs 0 ≤ o) :
    ∀ n, xs n ≤ filterRun tc dts xs o n := by
  intro n
  induction n with
  | zero => exact ho
  | succ m ih =>
    have h := filterUpdate_mem tc (dts m) (filterRun tc dts xs o m) (xs m)
      (xs m) (filterRun tc dts xs o m) htc (hdts m) ih le_rfl le_rfl ih
    exact le_trans (hmono m) h.1

/-- C5: the exponential smoother with gain recomputed from the elapsed time of
each update: for a constant input the error contracts geometrically at rate
timeConstant/(dt+timeConstant) and falls below any positive bound after
finitely many ticks; for monotone-approaching inputs the output moves
monotonically toward them; and the output always stays inside any range
containing the initial output and all historical inputs (spec section 4.8). -/
theorem smoothingFilter_spec (tc : ℚ) (htc : 0 < tc) :
    (∀ dt x o, 0 < dt →
      (∀ n, |filterRun tc (fun _ => dt) (fun _ => x) o n - x|
        = (tc / (dt + tc)) ^ n * |o - x|) ∧
      (∀ ε, 0 < ε → ∃ N, ∀ n, N ≤ n →
        |filterRun tc (fun _ => dt) (fun _ => x) o n - x| ≤ ε)) ∧
    (∀ dts xs o, (∀ j, 0 < dts j) → (∀ j, xs j ≤ xs (j + 1)) → o ≤ xs 0 →
      ∀ n, filterRun tc dts xs o n ≤ filterRun tc dts xs o (n + 1) ∧
        filterRun tc dts xs o n ≤ xs n) ∧
    (∀ dts xs o, (∀ j, 0 < dts j) → (∀ j, xs (j + 1) ≤ xs j) → xs 0 ≤ o →
      ∀ n, filterRun tc dts xs o (n + 1) ≤ filterRun tc dts xs o n ∧
        xs n ≤ filterRun tc dts xs o n) ∧
    (∀ dts xs o lo hi, (∀ j, 0 < dts j) → lo ≤ o → o ≤ hi →
      (∀ j, lo ≤ xs j ∧ xs j ≤ hi) →
      ∀ n, lo ≤ filterRun tc dts xs o n ∧ filterRun tc dts xs o n ≤ hi) := by
  refine ⟨fun dt x o hdt => ⟨fun n => ?_, fun ε hε => ?_⟩,
    fun dts xs o hdts hmono ho n => ⟨?_, filterRun_le_input tc htc dts xs o hdts hmono ho n⟩,
    fun dts xs o hdts hmono ho n => ⟨?_, filterRun_ge_input tc htc dts xs o hdts hmono ho n⟩,
    fun dts xs o lo hi hdts hlo hhi hxs => ?_⟩
  · have hsum : 0 < dt + tc := by linarith
    rw [filterRun_const_err tc dt x o (ne_of_gt hsum) n, abs_mul, abs_pow,
      abs_of_nonneg (le_of_lt (div_pos htc hsum))]
  · exact filterRun_const_converges tc dt x o htc hdt ε hε
  · have hle := filterRun_le_input tc htc dts xs o hdts hmono ho n
    exact (filterUpdate_mem tc (dts n) (filterRun tc dts xs o n) (xs n)
      (filterRun tc dts xs o n) (xs n) htc (hdts n) le_rfl hle hle le_rfl).1
  · have hge := filterRun_ge_input tc htc dts xs o hdts hmono ho n
    exact (filterUpdate_mem tc (dts n) (filterRun tc dts xs o n) (xs n)
      (xs n) (filterRun tc dts xs o n) htc (hdts n) hge le_rfl le_rfl hge).2
  · intro n
    induction n with
    | zero => exact ⟨hlo, hhi⟩
    | succ m ih =>
      exact filterUpdate_mem tc (dts m) (filterRun tc dts xs o m) (xs m)
        lo hi htc (hdts m) ih.1 ih.2 (hxs m).1 (hxs m).2

/-- Witness for C5: with time constant 1, unit ticks, constant input 4 and
initial output 0, the output is eventually within one half of the input. -/
theorem smoothingFilter_spec_witness :
    ∃ N, ∀ n, N ≤ n →
      |filterRun 1 (fun _ => 1) (fun _ => 4) 0 n - 4| ≤ 1 / 2 :=
  ((smoothingFilter_spec 1 one_pos).1 1 4 0 one_pos).2 (1 / 2) (by norm_num)

end AnnotatedCamera
